import Mathlib

/-!
A shallow embedding of the optimistic-concurrency CRUD synchronization layer of
the content-calendar repository (`src/app/actions.ts`, with the client-side
drag-and-drop handler from `components/CalendarView.tsx`).

Modelling conventions:
* ISO timestamp strings stay `String`; the ambient JavaScript `Date` parser and
  the zod `z.string().datetime()` format check are an explicit environment
  (`DateEnv`): `parse s = some t` models `new Date(s).getTime() = t`, and
  `parse s = none` models an Invalid Date (`NaN`).  Any relational comparison
  against `NaN` in JavaScript is `false`, which the definitions reproduce.
* The persisted blob is modelled structurally (`Blob`): either a JSON array of
  raw event records, some other JSON value (`Array.isArray` fails), or text
  that `JSON.parse` rejects.  `JSON.stringify` of a list of records is modelled
  as `Blob.arr` itself, so structural equality of records is field-for-field
  equality of the serialized objects.
* A raw record read from storage (`RawEvent`) has every field optional: the
  code parses untyped JSON and checks fields for truthiness at use sites.
  JavaScript string truthiness (absent/`null`/`""` are falsy) is `truthy`.
* The remote GitHub API is an explicit outcome environment: `ReadOutcome` is
  what `octokit.repos.getContent` does on this call, `WriteOutcome` what
  `octokit.repos.createOrUpdateFileContents` would do if invoked.  Each server
  action returns its result together with the trace of store operations it
  performed (`StoreOp`), so "zero writes" and "at most one write" are
  properties of the trace.
* `randomUUID()` is an explicit parameter of `createCalendarEvent`.
-/

namespace ContentCalendar

/-- The persisted event shape of `src/app/actions.ts` (`CalendarEvent`):
string ISO dates, optional/nullable `notes` and `attachment`. -/
structure CalendarEvent where
  id : String
  title : String
  start : String
  «end» : String
  status : String
  notes : Option String
  attachment : Option String
deriving DecidableEq, Repr

/-- The shape consumed by the calendar widget (`BigCalendarEvent`): same fields
but `start`/`end` are `Date` objects, modelled by their epoch-millisecond
value. -/
structure BigCalendarEvent where
  id : String
  title : String
  status : String
  notes : Option String
  attachment : Option String
  start : Int
  «end» : Int
deriving DecidableEq, Repr

/-- A record as it sits in the persisted JSON array: untyped, so every field
may be absent.  `none` covers a missing or `null`/`undefined` field. -/
structure RawEvent where
  id : Option String
  title : Option String
  start : Option String
  «end» : Option String
  status : Option String
  notes : Option String
  attachment : Option String
deriving DecidableEq, Repr

/-- Serializing a full `CalendarEvent` into a stored record (what
`JSON.stringify` sees when a validated event is placed into the array). -/
def CalendarEvent.toRaw (e : CalendarEvent) : RawEvent :=
  ⟨some e.id, some e.title, some e.start, some e.«end», some e.status, e.notes, e.attachment⟩

/-- The ambient date machinery of the JavaScript runtime.
`parse s` is `new Date(s).getTime()` (`none` = `NaN`);
`isDatetime s` is the zod `z.string().datetime()` format acceptance. -/
structure DateEnv where
  parse : String → Option Int
  isDatetime : String → Bool

/-- One zod issue: a field path plus a message (`z.ZodIssue`, restricted to the
two components the code and spec use). -/
structure ZodIssue where
  path : List String
  message : String
deriving DecidableEq, Repr

/-- `dateRefinement` from `actions.ts`: `new Date(data.start) < new Date(data.end)`.
A comparison involving an Invalid Date (`NaN`) is `false` in JavaScript. -/
def dateRefinement (env : DateEnv) (start «end» : String) : Bool :=
  match env.parse start, env.parse «end» with
  | some s, some e => s < e
  | _, _ => false

/-- Field-level issues of `baseEventSchema` (id/title non-empty, start/end in
datetime format, status non-empty; notes/attachment optional-nullable hence
never failing), in schema declaration order. -/
def baseEventIssues (env : DateEnv) (e : CalendarEvent) : List ZodIssue :=
  (if e.id.isEmpty then [⟨["id"], "String must contain at least 1 character(s)"⟩] else [])
  ++ (if e.title.isEmpty then [⟨["title"], "Title is required"⟩] else [])
  ++ (if env.isDatetime e.start then []
      else [⟨["start"], "Invalid approval date/time format (e.g., YYYY-MM-DDTHH:mm)"⟩])
  ++ (if env.isDatetime e.«end» then []
      else [⟨["end"], "Invalid publishing date/time format (e.g., YYYY-MM-DDTHH:mm)"⟩])
  ++ (if e.status.isEmpty then [⟨["status"], "Status is required"⟩] else [])

/-- `eventSchema.safeParse` (the "existing event" shape): base field checks,
then — only if those all pass, as zod runs `.refine` only on a successful base
parse — the cross-field `dateRefinement` with its issue attached to `end`. -/
def eventSchemaSafeParse (env : DateEnv) (e : CalendarEvent) :
    Except (List ZodIssue) CalendarEvent :=
  if (baseEventIssues env e).isEmpty then
    if dateRefinement env e.start e.«end» then .ok e
    else .error [⟨["end"], "Publishing date must be after approval date"⟩]
  else .error (baseEventIssues env e)

/-- Input to `createCalendarEvent`: the event shape with the id omitted. -/
structure NewEventInput where
  title : String
  start : String
  «end» : String
  status : String
  notes : Option String
  attachment : Option String
deriving DecidableEq, Repr

/-- Field-level issues of `baseEventSchema.omit({id})` for the "new event"
shape. -/
def newEventIssues (env : DateEnv) (e : NewEventInput) : List ZodIssue :=
  (if e.title.isEmpty then [⟨["title"], "Title is required"⟩] else [])
  ++ (if env.isDatetime e.start then []
      else [⟨["start"], "Invalid approval date/time format (e.g., YYYY-MM-DDTHH:mm)"⟩])
  ++ (if env.isDatetime e.«end» then []
      else [⟨["end"], "Invalid publishing date/time format (e.g., YYYY-MM-DDTHH:mm)"⟩])
  ++ (if e.status.isEmpty then [⟨["status"], "Status is required"⟩] else [])

/-- `newEventSchema.safeParse`: the "new event" shape (no `id`), same
cross-field refinement attached to `end`. -/
def newEventSchemaSafeParse (env : DateEnv) (e : NewEventInput) :
    Except (List ZodIssue) NewEventInput :=
  if (newEventIssues env e).isEmpty then
    if dateRefinement env e.start e.«end» then .ok e
    else .error [⟨["end"], "Publishing date must be after approval date"⟩]
  else .error (newEventIssues env e)

/-! ## Remote store model -/

/-- The persisted blob, structurally.  `arr es` is text that `JSON.parse`
turns into an array of records; `nonArray` parses but fails `Array.isArray`;
`malformed` makes `JSON.parse` throw.  The literal string `"[]"` is the blob
`arr []`. -/
inductive Blob where
  | arr (events : List RawEvent)
  | nonArray
  | malformed
deriving DecidableEq, Repr

/-- What `octokit.repos.getContent` does on this call. -/
inductive ReadOutcome where
  | fileOk (blob : Blob) (sha : String)
  | fileNoContent (sha : String)
  | notAFile
  | notFound
  | apiError (status : Nat) (message : String)
deriving DecidableEq, Repr

/-- What `octokit.repos.createOrUpdateFileContents` would do if invoked. -/
inductive WriteOutcome where
  | ok
  | conflict
  | unprocessable
  | otherError (status : Nat) (message : String)
deriving DecidableEq, Repr

/-- The remote behaviour visible to one server-action call. -/
structure StoreEnv where
  read : ReadOutcome
  write : WriteOutcome
deriving DecidableEq, Repr

/-- `getFileContent` from `actions.ts` (lines 83-123): file content plus sha on
success; a missing-content file, a non-file path and a 404 all degrade to
`("[]", null-or-sha)`; any other API error is re-thrown with status and
message. -/
def getFileContent : ReadOutcome → Except String (Blob × Option String)
  | .fileOk blob sha => .ok (blob, some sha)
  | .fileNoContent sha => .ok (.arr [], some sha)
  | .notAFile => .ok (.arr [], none)
  | .notFound => .ok (.arr [], none)
  | .apiError status message =>
      .error ("Failed to fetch file from GitHub (" ++ toString status ++ "). " ++ message)

/-- `updateFileContent` from `actions.ts` (lines 126-153): one
`createOrUpdateFileContents` call; 409 → conflict message telling the user to
refresh and try again; 422 → unprocessable message; anything else re-thrown
with status and message. -/
def updateFileContent : WriteOutcome → Except String Unit
  | .ok => .ok ()
  | .conflict =>
      .error "Update Conflict (409): The file was modified by someone else. Please refresh and try again."
  | .unprocessable =>
      .error "Update Failed (422): Could not process the update. If the file was previously empty, this might be expected on first save. Otherwise, check data or refresh."
  | .otherError status message =>
      .error ("Failed to update file on GitHub (" ++ toString status ++ "). " ++ message)

/-- `fetchRawCalendarEventsForUpdate` from `actions.ts` (lines 156-177), the
read-for-mutation path: read the file, parse; a parse failure or a non-array
value is thrown as a hard error (both reach the same `catch`, which throws the
"Failed to parse" message). -/
def fetchRawCalendarEventsForUpdate (r : ReadOutcome) :
    Except String (List RawEvent × Option String) :=
  match getFileContent r with
  | .error msg => .error msg
  | .ok (blob, sha) =>
    match blob with
    | .arr events => .ok (events, sha)
    | .nonArray =>
        .error "Failed to parse the calendar data file. Please check its content on GitHub."
    | .malformed =>
        .error "Failed to parse the calendar data file. Please check its content on GitHub."

/-- One attempted remote write: the serialized array, the sha precondition and
the commit message. -/
structure WriteCall where
  newContent : List RawEvent
  sha : Option String
  commitMessage : String
deriving DecidableEq, Repr

/-- A store operation performed by an action: a read of the collection or an
invocation of `updateFileContent`. -/
inductive StoreOp where
  | read
  | write (w : WriteCall)
deriving DecidableEq, Repr

/-- The write calls in a trace. -/
def writesOf (t : List StoreOp) : List WriteCall :=
  t.filterMap fun op => match op with | .read => none | .write w => some w

/-- The result shape of every server action. -/
structure ActionResult where
  success : Bool
  message : String
  errors : Option (List ZodIssue)
deriving DecidableEq, Repr

/-! ## Server actions (primary revision, `actions.ts` lines 181-299) -/

/-- The JavaScript `Array.prototype.findIndex`, with `-1` modelled as `none`. -/
def findIndex (p : α → Bool) : List α → Option Nat
  | [] => none
  | x :: xs => if p x then some 0 else (findIndex p xs).map (· + 1)

/-- `updateCalendarEventRefined` (lines 181-219): validate, read, locate by
`id`, replace in place, serialize, write with the sha read; every failure is
returned as `success := false` with a message.  The second component is the
trace of store operations the call performed. -/
def updateCalendarEventRefined (env : DateEnv) (store : StoreEnv)
    (updatedEventData : CalendarEvent) : ActionResult × List StoreOp :=
  match eventSchemaSafeParse env updatedEventData with
  | .error issues =>
      ({ success := false, message := "Invalid data provided.", errors := some issues }, [])
  | .ok validatedEvent =>
    match fetchRawCalendarEventsForUpdate store.read with
    | .error msg => ({ success := false, message := msg, errors := none }, [.read])
    | .ok (currentEvents, sha) =>
      match findIndex (fun e => e.id == some validatedEvent.id) currentEvents with
      | none =>
          ({ success := false,
             message := "Event ID " ++ validatedEvent.id ++ " not found. It might have been deleted.",
             errors := none }, [.read])
      | some eventIndex =>
        let updatedEvents := currentEvents.set eventIndex validatedEvent.toRaw
        let commitMessage :=
          "Update event: " ++ validatedEvent.title ++ " (ID: " ++ validatedEvent.id ++ ")"
        let w : WriteCall := ⟨updatedEvents, sha, commitMessage⟩
        match updateFileContent store.write with
        | .error msg =>
            ({ success := false, message := msg, errors := none }, [.read, .write w])
        | .ok _ =>
            ({ success := true, message := "Event updated successfully!", errors := none },
             [.read, .write w])

/-- `createCalendarEvent` (lines 223-258): validate the id-less input, read,
append a new event carrying the freshly generated UUID (`newEventId`, an
explicit parameter here), serialize, write. -/
def createCalendarEvent (env : DateEnv) (store : StoreEnv)
    (newEventData : NewEventInput) (newEventId : String) : ActionResult × List StoreOp :=
  match newEventSchemaSafeParse env newEventData with
  | .error issues =>
      ({ success := false, message := "Invalid data for new event.", errors := some issues }, [])
  | .ok validatedData =>
    match fetchRawCalendarEventsForUpdate store.read with
    | .error msg => ({ success := false, message := msg, errors := none }, [.read])
    | .ok (currentEvents, sha) =>
      let newEvent : CalendarEvent :=
        ⟨newEventId, validatedData.title, validatedData.start, validatedData.«end»,
         validatedData.status, validatedData.notes, validatedData.attachment⟩
      let updatedEvents := currentEvents ++ [newEvent.toRaw]
      let commitMessage :=
        "Create event: " ++ newEvent.title ++ " (ID: " ++ newEvent.id ++ ")"
      let w : WriteCall := ⟨updatedEvents, sha, commitMessage⟩
      match updateFileContent store.write with
      | .error msg =>
          ({ success := false, message := msg, errors := none }, [.read, .write w])
      | .ok _ =>
          ({ success := true, message := "Event created successfully!", errors := none },
           [.read, .write w])

/-- How JavaScript template-string interpolation prints an absent
`eventToDelete.title` field. -/
def titleOrUndefined : Option String → String
  | some t => t
  | none => "undefined"

/-- `deleteCalendarEvent` (lines 261-299): validate the id, read, require an
event with that id to exist, filter out every record whose `id` strictly
equals it, serialize, write. -/
def deleteCalendarEvent (store : StoreEnv)
    (eventId : String) : ActionResult × List StoreOp :=
  -- deleteEventSchema: eventId must be a non-empty string
  if eventId.isEmpty then
    ({ success := false, message := "Invalid Event ID for deletion.",
       errors := some [⟨["eventId"], "Event ID is required for deletion"⟩] }, [])
  else
    match fetchRawCalendarEventsForUpdate store.read with
    | .error msg => ({ success := false, message := msg, errors := none }, [.read])
    | .ok (currentEvents, sha) =>
      match currentEvents.find? (fun e => e.id == some eventId) with
      | none =>
          ({ success := false, message := "Event ID " ++ eventId ++ " not found.",
             errors := none }, [.read])
      | some eventToDelete =>
        let updatedEvents := currentEvents.filter (fun event => event.id != some eventId)
        let commitMessage :=
          "Delete event: " ++ titleOrUndefined eventToDelete.title ++ " (ID: " ++ eventId ++ ")"
        let w : WriteCall := ⟨updatedEvents, sha, commitMessage⟩
        match updateFileContent store.write with
        | .error msg =>
            ({ success := false, message := msg, errors := none }, [.read, .write w])
        | .ok _ =>
            ({ success := true, message := "Event deleted successfully!", errors := none },
             [.read, .write w])

/-! ## Display read (`fetchCalendarEvents`, `actions.ts` lines 304-378) -/

/-- JavaScript string-field truthiness: absent, `null` and `""` are falsy. -/
def truthy : Option String → Bool
  | none => false
  | some s => !s.isEmpty

/-- The per-entry transformation of the display loop (lines 331-368): skip the
entry unless `id`, `start`, `end`, `title`, `status` are all truthy, both dates
parse, and `start < end` strictly; otherwise push the event with every field
carried over and the dates as `Date` objects. -/
def processEvent (env : DateEnv) (event : RawEvent) : Option BigCalendarEvent :=
  match event.id, event.start, event.«end», event.title, event.status with
  | some id, some startStr, some endStr, some title, some status =>
    if id.isEmpty || startStr.isEmpty || endStr.isEmpty || title.isEmpty || status.isEmpty then
      none
    else
      match env.parse startStr, env.parse endStr with
      | some start, some «end» =>
          if start ≥ «end» then none
          else some ⟨id, title, status, event.notes, event.attachment, start, «end»⟩
      | _, _ => none
  | _, _, _, _, _ => none

/-- `fetchCalendarEvents` (lines 304-378), the read-for-display path: any read
error, unparsable blob or non-array value degrades to `[]`; otherwise each
entry goes through `processEvent` and the failures are dropped. -/
def fetchCalendarEvents (env : DateEnv) (r : ReadOutcome) : List BigCalendarEvent :=
  match getFileContent r with
  | .error _ => []
  | .ok (blob, _) =>
    match blob with
    | .malformed => []
    | .nonArray => []
    | .arr storedEvents => storedEvents.filterMap (processEvent env)

/-! ## Optimistic drag-and-drop (`CalendarView.tsx`, `handleEventDrop`) -/

/-- How the awaited `updateCalendarEventRefined` call resolves from the
client point of view: a result object, or a thrown/rejected promise. -/
inductive UpdateOutcome where
  | resolved (result : ActionResult)
  | thrown
deriving Repr

/-- The client states `handleEventDrop` goes through: the optimistically
updated cache set before the network call resolves (step 4 of the handler),
the cache after reconciliation, and the alert messages shown. -/
structure DropResult where
  optimisticEvents : List BigCalendarEvent
  finalEvents : List BigCalendarEvent
  alerts : List String
deriving Repr

/-- `handleEventDrop` from `components/CalendarView.tsx` (the revision in
`src/unnamed/part_001`, lines 132-195): validate the drop range (`start` and
`end` must be `Date`s with `start < end`, else alert and change nothing);
snapshot `localEvents`; apply the reschedule to the cache immediately; await
the update action; on `success = false` alert with the message of the action and
restore the snapshot; on a thrown error alert generically and restore the
snapshot.  The drop times are `Option Int` (`none` = not a `Date` instance). -/
def handleEventDrop (localEvents : List BigCalendarEvent) (event : BigCalendarEvent)
    (start «end» : Option Int) (outcome : UpdateOutcome) : DropResult :=
  match start, «end» with
  | some s, some e =>
    if s ≥ e then
      ⟨localEvents, localEvents, ["Error: Invalid date range for dropped event."]⟩
    else
      let originalEvents := localEvents
      let updatedOptimisticEvent : BigCalendarEvent := { event with start := s, «end» := e }
      let optimisticEvents :=
        originalEvents.map (fun ev => if ev.id == event.id then updatedOptimisticEvent else ev)
      match outcome with
      | .resolved result =>
        if !result.success then
          ⟨optimisticEvents, originalEvents,
           ["Error updating schedule: " ++ result.message ++ ". Reverting change."]⟩
        else
          ⟨optimisticEvents, optimisticEvents, []⟩
      | .thrown =>
          ⟨optimisticEvents, originalEvents,
           ["An unexpected error occurred while saving the schedule change. Reverting change."]⟩
  | _, _ => ⟨localEvents, localEvents, ["Error: Invalid date range for dropped event."]⟩

/-! ## Secondary revision of the mutation read path

`src/app/actions.ts` also carries an older revision of the same module (lines
379-582).  Its `fetchRawCalendarEventsForUpdate` (lines 460-474) catches the
parse failure and returns `{ events: [], sha }` instead of throwing, and its
`createCalendarEvent` (lines 501-522) otherwise follows the same shape (that
schema of that revision has no `attachment` field; an input with `attachment = none`
is the common shape).  These definitions embed that revision to settle what it
does on an unparsable blob. -/

/-- `getFileContent` of the secondary revision (lines 405-432): behaviourally
identical on the read outcomes, with slightly different thrown messages. -/
def getFileContentV2 : ReadOutcome → Except String (Blob × Option String)
  | .fileOk blob sha => .ok (blob, some sha)
  | .fileNoContent sha => .ok (.arr [], some sha)
  | .notAFile => .ok (.arr [], none)
  | .notFound => .ok (.arr [], none)
  | .apiError status message =>
      .error ("Failed to fetch file from GitHub (" ++ toString status ++ "): " ++ message)

/-- `fetchRawCalendarEventsForUpdate` of the secondary revision (lines
460-474): a parse failure or non-array value is caught and returned as
`{ events: [], sha }` — the sha of the unparsable blob is kept. -/
def fetchRawCalendarEventsForUpdateV2 (r : ReadOutcome) :
    Except String (List RawEvent × Option String) :=
  match getFileContentV2 r with
  | .error msg => .error msg
  | .ok (blob, sha) =>
    match blob with
    | .arr events => .ok (events, sha)
    | .nonArray => .ok ([], sha)
    | .malformed => .ok ([], sha)

/-- `updateFileContent` of the secondary revision (lines 434-458). -/
def updateFileContentV2 : WriteOutcome → Except String Unit
  | .ok => .ok ()
  | .conflict =>
      .error "Failed update (409 Conflict): File updated concurrently. Refresh & try again."
  | .unprocessable =>
      .error "Failed update (422 Invalid Data/SHA): State mismatch or invalid data. Refresh & try again."
  | .otherError status message =>
      .error ("Failed to update file on GitHub (" ++ toString status ++ "): " ++ message)

/-- `createCalendarEvent` of the secondary revision (lines 501-522): same
validate → read → append → write shape, but on top of the lenient
`fetchRawCalendarEventsForUpdateV2`. -/
def createCalendarEventV2 (env : DateEnv) (store : StoreEnv)
    (newEventData : NewEventInput) (newEventId : String) : ActionResult × List StoreOp :=
  match newEventSchemaSafeParse env newEventData with
  | .error issues =>
      ({ success := false, message := "Invalid data for new event.", errors := some issues }, [])
  | .ok validatedData =>
    match fetchRawCalendarEventsForUpdateV2 store.read with
    | .error msg => ({ success := false, message := msg, errors := none }, [.read])
    | .ok (currentEvents, sha) =>
      let newEvent : CalendarEvent :=
        ⟨newEventId, validatedData.title, validatedData.start, validatedData.«end»,
         validatedData.status, validatedData.notes, validatedData.attachment⟩
      let updatedEvents := currentEvents ++ [newEvent.toRaw]
      let commitMessage :=
        "Create event: " ++ newEvent.title ++ " (ID: " ++ newEvent.id ++ ")"
      let w : WriteCall := ⟨updatedEvents, sha, commitMessage⟩
      match updateFileContentV2 store.write with
      | .error msg =>
          ({ success := false, message := msg, errors := none }, [.read, .write w])
      | .ok _ =>
          ({ success := true, message := "Event created successfully!", errors := none },
           [.read, .write w])

/-- The shape the secondary revision pushes from its display loop (lines
567-573): it copies `title`, `status` and `notes` without checking them — so
they may be `undefined` — and has no `attachment` field at all (the
CalendarEvent interface of that revision lacks it). -/
structure BigCalendarEventV2 where
  id : String
  title : Option String
  status : Option String
  notes : Option String
  start : Int
  «end» : Int
deriving DecidableEq, Repr

/-- The per-entry transformation of the display loop of the secondary revision
(lines 567-573): skip the entry unless `id`, `start`, `end` are truthy
(`title` and `status` are NOT checked), both dates parse, and start is
strictly before end; the pushed record carries `title`/`status`/`notes`
verbatim and omits `attachment`. -/
def processEventV2 (env : DateEnv) (event : RawEvent) : Option BigCalendarEventV2 :=
  match event.id, event.start, event.«end» with
  | some id, some startStr, some endStr =>
    if id.isEmpty || startStr.isEmpty || endStr.isEmpty then none
    else
      match env.parse startStr, env.parse endStr with
      | some start, some «end» =>
          if start < «end» then
            some ⟨id, event.title, event.status, event.notes, start, «end»⟩
          else none
      | _, _ => none
  | _, _, _ => none

/-- `fetchCalendarEvents` of the secondary revision (lines 550-582): the same
blanket degrade-to-`[]` on read failure, unparsable blob or non-array value,
with the weaker per-entry filter `processEventV2`. -/
def fetchCalendarEventsV2 (env : DateEnv) (r : ReadOutcome) : List BigCalendarEventV2 :=
  match getFileContentV2 r with
  | .error _ => []
  | .ok (blob, _) =>
    match blob with
    | .malformed => []
    | .nonArray => []
    | .arr data => data.filterMap (processEventV2 env)

/-! ## Concrete test environment for witnesses -/

/-- A small concrete date environment: a lookup table for the handful of ISO
strings the concrete scenarios use. -/
def testDateEnv : DateEnv where
  parse s :=
    if s = "2025-03-01T09:00:00Z" then some 1740819600000
    else if s = "2025-03-01T10:00:00Z" then some 1740823200000
    else if s = "2025-03-01T08:00:00Z" then some 1740816000000
    else none
  isDatetime s :=
    s = "2025-03-01T09:00:00Z" || s = "2025-03-01T10:00:00Z" || s = "2025-03-01T08:00:00Z"

/-! ## Concrete fixtures -/

/-- A well-formed event (scenario 1 of the spec, with an id). -/
def sampleEvent : CalendarEvent :=
  ⟨"e1", "Launch post", "2025-03-01T09:00:00Z", "2025-03-01T10:00:00Z", "Draft", none, none⟩

/-- A fixed event whose `end` equals its `start` (scenario 2 of the spec). -/
def zeroLengthEvent : CalendarEvent :=
  ⟨"e1", "Launch post", "2025-03-01T09:00:00Z", "2025-03-01T09:00:00Z", "Draft", none, none⟩

/-- A well-formed id-less creation input (scenario 1 of the spec). -/
def sampleNewInput : NewEventInput :=
  ⟨"Launch post", "2025-03-01T09:00:00Z", "2025-03-01T10:00:00Z", "Draft", none, none⟩

/-! ## Helper lemmas -/

theorem findIndex_eq_some {α : Type} {p : α → Bool} :
    ∀ {l : List α} {i : Nat}, findIndex p l = some i → ∃ x, l[i]? = some x ∧ p x = true := by
  intro l
  induction l with
  | nil => intro i h; simp [findIndex] at h
  | cons x xs ih =>
    intro i h
    by_cases hp : p x
    · simp [findIndex, hp] at h
      subst h
      exact ⟨x, by simp, hp⟩
    · simp [findIndex, hp] at h
      obtain ⟨j, hj, hji⟩ := h
      obtain ⟨y, hy, hpy⟩ := ih hj
      subst hji
      exact ⟨y, by simpa using hy, hpy⟩

theorem set_of_getElem?_eq {α : Type} :
    ∀ (l : List α) (n : Nat) (a : α), l[n]? = some a → l.set n a = l := by
  intro l
  induction l with
  | nil => intro n a h; simp at h
  | cons x xs ih =>
    intro n a h
    cases n with
    | zero => simp_all
    | succ m =>
      have h' : xs[m]? = some a := by simpa using h
      show x :: xs.set m a = x :: xs
      rw [ih m a h']

theorem eventSchemaSafeParse_ok {env : DateEnv} {e v : CalendarEvent}
    (h : eventSchemaSafeParse env e = .ok v) : v = e := by
  unfold eventSchemaSafeParse at h
  split at h
  · split at h
    · injection h with h; exact h.symm
    · cases h
  · cases h

theorem newEventSchemaSafeParse_ok {env : DateEnv} {e v : NewEventInput}
    (h : newEventSchemaSafeParse env e = .ok v) : v = e := by
  unfold newEventSchemaSafeParse at h
  split at h
  · split at h
    · injection h with h; exact h.symm
    · cases h
  · cases h

theorem dateRefinement_false_of_le {env : DateEnv} {a b : String} {s t : Int}
    (ha : env.parse a = some s) (hb : env.parse b = some t) (h : t ≤ s) :
    dateRefinement env a b = false := by
  simp only [dateRefinement, ha, hb, decide_eq_false_iff_not]
  omega

theorem eventSchemaSafeParse_error_of_le {env : DateEnv} {e : CalendarEvent} {s t : Int}
    (ha : env.parse e.start = some s) (hb : env.parse e.«end» = some t) (h : t ≤ s) :
    ∃ issues, eventSchemaSafeParse env e = .error issues := by
  unfold eventSchemaSafeParse
  by_cases hI : (baseEventIssues env e).isEmpty
  · simp [hI, dateRefinement_false_of_le ha hb h]
  · simp [hI]

theorem newEventSchemaSafeParse_error_of_le {env : DateEnv} {e : NewEventInput} {s t : Int}
    (ha : env.parse e.start = some s) (hb : env.parse e.«end» = some t) (h : t ≤ s) :
    ∃ issues, newEventSchemaSafeParse env e = .error issues := by
  unfold newEventSchemaSafeParse
  by_cases hI : (newEventIssues env e).isEmpty
  · simp [hI, dateRefinement_false_of_le ha hb h]
  · simp [hI]

/-! ## Claim theorems -/

/-- C9: `getFileContent` returns the empty collection with no revision token
both on a 404 and on a path that exists but is not a file, raising no error in
either case; any other API failure raises a Store Error carrying the
underlying status and message. -/
theorem C9_read_absent_degrades :
    getFileContent .notFound = .ok (Blob.arr [], none) ∧
    getFileContent .notAFile = .ok (Blob.arr [], none) ∧
    ∀ (status : Nat) (message : String),
      getFileContent (.apiError status message) =
        .error ("Failed to fetch file from GitHub (" ++ toString status ++ "). " ++ message) :=
  ⟨rfl, rfl, fun _ _ => rfl⟩

/-- C5: any create/update input whose end timestamp is less than or equal to
its start timestamp is rejected by validation — the action fails and performs
no store operation at all; when the field-level checks pass, the sole issue is
attached to the `end` path; and a start strictly before its end passes the
cross-field rule. -/
theorem C5_validation_end_not_after_start :
    (∀ (env : DateEnv) (store : StoreEnv) (e : CalendarEvent) (s t : Int),
       env.parse e.start = some s → env.parse e.«end» = some t → t ≤ s →
       (updateCalendarEventRefined env store e).1.success = false ∧
       (updateCalendarEventRefined env store e).2 = []) ∧
    (∀ (env : DateEnv) (store : StoreEnv) (inp : NewEventInput) (newId : String) (s t : Int),
       env.parse inp.start = some s → env.parse inp.«end» = some t → t ≤ s →
       (createCalendarEvent env store inp newId).1.success = false ∧
       (createCalendarEvent env store inp newId).2 = []) ∧
    (∀ (env : DateEnv) (e : CalendarEvent) (s t : Int),
       baseEventIssues env e = [] →
       env.parse e.start = some s → env.parse e.«end» = some t → t ≤ s →
       eventSchemaSafeParse env e =
         .error [⟨["end"], "Publishing date must be after approval date"⟩]) ∧
    (∀ (env : DateEnv) (inp : NewEventInput) (s t : Int),
       newEventIssues env inp = [] →
       env.parse inp.start = some s → env.parse inp.«end» = some t → t ≤ s →
       newEventSchemaSafeParse env inp =
         .error [⟨["end"], "Publishing date must be after approval date"⟩]) ∧
    (∀ (env : DateEnv) (a b : String) (s t : Int),
       env.parse a = some s → env.parse b = some t → s < t →
       dateRefinement env a b = true) := by
  refine ⟨?_, ?_, ?_, ?_, ?_⟩
  · intro env store e s t ha hb h
    obtain ⟨issues, hI⟩ := eventSchemaSafeParse_error_of_le ha hb h
    simp [updateCalendarEventRefined, hI]
  · intro env store inp newId s t ha hb h
    obtain ⟨issues, hI⟩ := newEventSchemaSafeParse_error_of_le ha hb h
    simp [createCalendarEvent, hI]
  · intro env e s t hbase ha hb h
    simp [eventSchemaSafeParse, hbase, dateRefinement_false_of_le ha hb h]
  · intro env inp s t hbase ha hb h
    simp [newEventSchemaSafeParse, hbase, dateRefinement_false_of_le ha hb h]
  · intro env a b s t ha hb h
    simp [dateRefinement, ha, hb]
    omega

theorem C5_validation_end_not_after_start_witness :
    ((updateCalendarEventRefined testDateEnv ⟨.fileOk (.arr []) "sha0", .ok⟩
        zeroLengthEvent).1.success = false ∧
     (updateCalendarEventRefined testDateEnv ⟨.fileOk (.arr []) "sha0", .ok⟩
        zeroLengthEvent).2 = []) ∧
    eventSchemaSafeParse testDateEnv zeroLengthEvent =
      .error [⟨["end"], "Publishing date must be after approval date"⟩] ∧
    dateRefinement testDateEnv "2025-03-01T09:00:00Z" "2025-03-01T10:00:00Z" = true :=
  ⟨C5_validation_end_not_after_start.1 testDateEnv ⟨.fileOk (.arr []) "sha0", .ok⟩
      zeroLengthEvent 1740819600000 1740819600000 (by decide) (by decide) (by decide),
   C5_validation_end_not_after_start.2.2.1 testDateEnv zeroLengthEvent
      1740819600000 1740819600000 (by decide) (by decide) (by decide) (by decide),
   C5_validation_end_not_after_start.2.2.2.2 testDateEnv
      "2025-03-01T09:00:00Z" "2025-03-01T10:00:00Z" 1740819600000 1740823200000
      (by decide) (by decide) (by decide)⟩

/-- C1: each of the three mutation operations invokes `updateFileContent` at
most once per call; when validation fails it performs no store operation at
all, and when the target id is absent from the parsed collection
(update/delete) it performs no write. -/
theorem C1_mutation_at_most_one_write :
    (∀ (env : DateEnv) (store : StoreEnv) (e : CalendarEvent),
       (writesOf (updateCalendarEventRefined env store e).2).length ≤ 1) ∧
    (∀ (env : DateEnv) (store : StoreEnv) (inp : NewEventInput) (newId : String),
       (writesOf (createCalendarEvent env store inp newId).2).length ≤ 1) ∧
    (∀ (store : StoreEnv) (eventId : String),
       (writesOf (deleteCalendarEvent store eventId).2).length ≤ 1) ∧
    (∀ (env : DateEnv) (store : StoreEnv) (e : CalendarEvent) (issues : List ZodIssue),
       eventSchemaSafeParse env e = .error issues →
       (updateCalendarEventRefined env store e).2 = []) ∧
    (∀ (env : DateEnv) (store : StoreEnv) (inp : NewEventInput) (newId : String)
       (issues : List ZodIssue),
       newEventSchemaSafeParse env inp = .error issues →
       (createCalendarEvent env store inp newId).2 = []) ∧
    (∀ (store : StoreEnv) (eventId : String), eventId.isEmpty = true →
       (deleteCalendarEvent store eventId).2 = []) ∧
    (∀ (env : DateEnv) (store : StoreEnv) (e : CalendarEvent) (v : CalendarEvent)
       (es : List RawEvent) (sha : Option String),
       eventSchemaSafeParse env e = .ok v →
       fetchRawCalendarEventsForUpdate store.read = .ok (es, sha) →
       findIndex (fun r => r.id == some v.id) es = none →
       writesOf (updateCalendarEventRefined env store e).2 = []) ∧
    (∀ (store : StoreEnv) (eventId : String) (es : List RawEvent) (sha : Option String),
       eventId.isEmpty = false →
       fetchRawCalendarEventsForUpdate store.read = .ok (es, sha) →
       es.find? (fun r => r.id == some eventId) = none →
       writesOf (deleteCalendarEvent store eventId).2 = []) := by
  refine ⟨?_, ?_, ?_, ?_, ?_, ?_, ?_, ?_⟩
  · intro env store e
    unfold updateCalendarEventRefined
    split
    · simp [writesOf]
    · split
      · simp [writesOf]
      · split
        · simp [writesOf]
        · split <;> simp [writesOf]
  · intro env store inp newId
    unfold createCalendarEvent
    split
    · simp [writesOf]
    · split
      · simp [writesOf]
      · split <;> simp [writesOf]
  · intro store eventId
    unfold deleteCalendarEvent
    split
    · simp [writesOf]
    · split
      · simp [writesOf]
      · split
        · simp [writesOf]
        · split <;> simp [writesOf]
  · intro env store e issues h
    simp [updateCalendarEventRefined, h]
  · intro env store inp newId issues h
    simp [createCalendarEvent, h]
  · intro store eventId h
    simp [deleteCalendarEvent, h]
  · intro env store e v es sha h1 h2 h3
    simp [updateCalendarEventRefined, h1, h2, h3, writesOf]
  · intro store eventId es sha h1 h2 h3
    simp [deleteCalendarEvent, h1, h2, h3, writesOf]

theorem C1_mutation_at_most_one_write_witness :
    (updateCalendarEventRefined testDateEnv ⟨.fileOk (.arr []) "sha0", .ok⟩
       zeroLengthEvent).2 = [] ∧
    writesOf (updateCalendarEventRefined testDateEnv ⟨.fileOk (.arr []) "sha0", .ok⟩
       sampleEvent).2 = [] ∧
    writesOf (deleteCalendarEvent ⟨.fileOk (.arr []) "sha0", .ok⟩ "e9").2 = [] :=
  ⟨C1_mutation_at_most_one_write.2.2.2.1 testDateEnv ⟨.fileOk (.arr []) "sha0", .ok⟩
      zeroLengthEvent [⟨["end"], "Publishing date must be after approval date"⟩] rfl,
   C1_mutation_at_most_one_write.2.2.2.2.2.2.1 testDateEnv ⟨.fileOk (.arr []) "sha0", .ok⟩
      sampleEvent sampleEvent [] (some "sha0") rfl rfl rfl,
   C1_mutation_at_most_one_write.2.2.2.2.2.2.2 ⟨.fileOk (.arr []) "sha0", .ok⟩
      "e9" [] (some "sha0") (by decide) rfl rfl⟩

/-- C3: a write whose revision token no longer matches (the 409 outcome of the
compare-and-swap) surfaces as the distinct conflict message instructing the
user to refresh and try again; the enclosing mutation returns
`success = false` carrying exactly that message, and the write is invoked
exactly once — never retried — in all three operations. -/
theorem C3_conflict_surfaced_without_retry :
    (updateFileContent .conflict =
       .error "Update Conflict (409): The file was modified by someone else. Please refresh and try again.") ∧
    (∀ (env : DateEnv) (read : ReadOutcome) (e v : CalendarEvent) (es : List RawEvent)
       (sha : Option String) (i : Nat),
       eventSchemaSafeParse env e = .ok v →
       fetchRawCalendarEventsForUpdate read = .ok (es, sha) →
       findIndex (fun r => r.id == some v.id) es = some i →
       (updateCalendarEventRefined env ⟨read, .conflict⟩ e).1 =
         ⟨false, "Update Conflict (409): The file was modified by someone else. Please refresh and try again.", none⟩ ∧
       (writesOf (updateCalendarEventRefined env ⟨read, .conflict⟩ e).2).length = 1) ∧
    (∀ (env : DateEnv) (read : ReadOutcome) (inp v : NewEventInput) (newId : String)
       (es : List RawEvent) (sha : Option String),
       newEventSchemaSafeParse env inp = .ok v →
       fetchRawCalendarEventsForUpdate read = .ok (es, sha) →
       (createCalendarEvent env ⟨read, .conflict⟩ inp newId).1 =
         ⟨false, "Update Conflict (409): The file was modified by someone else. Please refresh and try again.", none⟩ ∧
       (writesOf (createCalendarEvent env ⟨read, .conflict⟩ inp newId).2).length = 1) ∧
    (∀ (read : ReadOutcome) (eventId : String) (es : List RawEvent) (sha : Option String)
       (ev : RawEvent),
       eventId.isEmpty = false →
       fetchRawCalendarEventsForUpdate read = .ok (es, sha) →
       es.find? (fun r => r.id == some eventId) = some ev →
       (deleteCalendarEvent ⟨read, .conflict⟩ eventId).1 =
         ⟨false, "Update Conflict (409): The file was modified by someone else. Please refresh and try again.", none⟩ ∧
       (writesOf (deleteCalendarEvent ⟨read, .conflict⟩ eventId).2).length = 1) := by
  refine ⟨rfl, ?_, ?_, ?_⟩
  · intro env read e v es sha i h1 h2 h3
    constructor <;> simp [updateCalendarEventRefined, h1, h2, h3, updateFileContent, writesOf]
  · intro env read inp v newId es sha h1 h2
    constructor <;> simp [createCalendarEvent, h1, h2, updateFileContent, writesOf]
  · intro read eventId es sha ev h1 h2 h3
    constructor <;> simp [deleteCalendarEvent, h1, h2, h3, updateFileContent, writesOf]

theorem C3_conflict_surfaced_without_retry_witness :
    (updateCalendarEventRefined testDateEnv
        ⟨.fileOk (.arr [sampleEvent.toRaw]) "sha0", .conflict⟩ sampleEvent).1 =
      ⟨false, "Update Conflict (409): The file was modified by someone else. Please refresh and try again.", none⟩ ∧
    (writesOf (updateCalendarEventRefined testDateEnv
        ⟨.fileOk (.arr [sampleEvent.toRaw]) "sha0", .conflict⟩ sampleEvent).2).length = 1 :=
  C3_conflict_surfaced_without_retry.2.1 testDateEnv (.fileOk (.arr [sampleEvent.toRaw]) "sha0")
    sampleEvent sampleEvent [sampleEvent.toRaw] (some "sha0") 0 rfl rfl rfl

/-- C2 (code bug in the secondary revision): on a store blob that does not
parse as a JSON array, the `createCalendarEvent` of the primary revision fails with
the parse Store Error and performs zero writes, but the secondary revision
(`actions.ts` lines 460-474 and 501-522) treats the blob as an empty
collection: its create succeeds and performs one write that replaces the
unparsable blob with a fresh single-event array — a write against a base
state other than the one persisted, which the claim (and the hard
Store-Error policy of the spec for mutations) forbids. -/
theorem C2_secondary_revision_overwrites_unparsable_blob :
    ((createCalendarEvent testDateEnv ⟨.fileOk .malformed "shaM", .ok⟩
        sampleNewInput "new-id").1.success = false ∧
     (createCalendarEvent testDateEnv ⟨.fileOk .malformed "shaM", .ok⟩
        sampleNewInput "new-id").1.message =
       "Failed to parse the calendar data file. Please check its content on GitHub." ∧
     writesOf (createCalendarEvent testDateEnv ⟨.fileOk .malformed "shaM", .ok⟩
        sampleNewInput "new-id").2 = []) ∧
    ((createCalendarEventV2 testDateEnv ⟨.fileOk .malformed "shaM", .ok⟩
        sampleNewInput "new-id").1.success = true ∧
     writesOf (createCalendarEventV2 testDateEnv ⟨.fileOk .malformed "shaM", .ok⟩
        sampleNewInput "new-id").2 =
       [⟨[(⟨"new-id", "Launch post", "2025-03-01T09:00:00Z", "2025-03-01T10:00:00Z",
           "Draft", none, none⟩ : CalendarEvent).toRaw],
         some "shaM", "Create event: Launch post (ID: new-id)"⟩]) :=
  ⟨⟨rfl, rfl, rfl⟩, rfl, rfl⟩

/-- An entry that is well-formed except that its required `status` field is
absent. -/
def missingStatusRaw : RawEvent :=
  ⟨some "e3", some "No status", some "2025-03-01T09:00:00Z", some "2025-03-01T10:00:00Z",
   none, none, none⟩

/-- A fully well-formed entry carrying an attachment. -/
def attachedRaw : RawEvent :=
  ⟨some "e4", some "With link", some "2025-03-01T09:00:00Z", some "2025-03-01T10:00:00Z",
   some "Draft", none, some "https://example.com/x"⟩

/-- C7 (code bug in the secondary revision): the primary display read (lines
304-378) behaves as the claim states — it drops an entry whose required
`status` field is missing, returns a well-formed event with every field
(`attachment` included) intact, keeps exactly the well-formed event of a
good/end-before-start pair, and degrades an unparsable blob to `[]`.  The
secondary display read (lines 550-582), also cited by the claim, checks only
`id`/`start`/`end`: it returns the status-less entry (with an undefined
`status` and `title` copied unchecked) instead of dropping it, and the records
it pushes carry no `attachment` field at all, so even a well-formed event is
not returned intact there. -/
theorem C7_secondary_display_read_breaks_leniency_contract :
    (processEvent testDateEnv missingStatusRaw = none ∧
     processEvent testDateEnv attachedRaw =
       some ⟨"e4", "With link", "Draft", none, some "https://example.com/x",
             1740819600000, 1740823200000⟩ ∧
     fetchCalendarEvents testDateEnv
         (.fileOk (.arr [attachedRaw,
           ⟨some "e2", some "Bad range", some "2025-03-01T10:00:00Z",
            some "2025-03-01T09:00:00Z", some "Draft", none, none⟩]) "sha0") =
       [⟨"e4", "With link", "Draft", none, some "https://example.com/x",
         1740819600000, 1740823200000⟩] ∧
     fetchCalendarEvents testDateEnv (.fileOk .malformed "shaM") = []) ∧
    (processEventV2 testDateEnv missingStatusRaw =
       some ⟨"e3", some "No status", none, none, 1740819600000, 1740823200000⟩ ∧
     fetchCalendarEventsV2 testDateEnv (.fileOk (.arr [missingStatusRaw]) "sha0") =
       [⟨"e3", some "No status", none, none, 1740819600000, 1740823200000⟩] ∧
     processEventV2 testDateEnv attachedRaw =
       some ⟨"e4", some "With link", some "Draft", none, 1740819600000, 1740823200000⟩ ∧
     fetchCalendarEventsV2 testDateEnv (.fileOk .malformed "shaM") = []) :=
  ⟨⟨rfl, rfl, rfl, rfl⟩, rfl, rfl, rfl, rfl⟩

/-- C4: an optimistic drag-and-drop reschedule with a well-formed range is
applied to the client cache immediately; if the background update then fails
(`success = false`) or throws, the cache after reconciliation is exactly the
pre-mutation snapshot and an alert surfaces the message of the operation. -/
theorem C4_optimistic_rollback :
    ∀ (localEvents : List BigCalendarEvent) (event : BigCalendarEvent) (s e : Int)
      (result : ActionResult),
      s < e →
      (result.success = false →
        handleEventDrop localEvents event (some s) (some e) (.resolved result) =
          ⟨localEvents.map (fun ev =>
              if ev.id == event.id then { event with start := s, «end» := e } else ev),
            localEvents,
            ["Error updating schedule: " ++ result.message ++ ". Reverting change."]⟩) ∧
      handleEventDrop localEvents event (some s) (some e) .thrown =
        ⟨localEvents.map (fun ev =>
            if ev.id == event.id then { event with start := s, «end» := e } else ev),
          localEvents,
          ["An unexpected error occurred while saving the schedule change. Reverting change."]⟩ := by
  intro localEvents event s e result hlt
  have hge : ¬ (s ≥ e) := by omega
  constructor
  · intro hfail
    simp [handleEventDrop, hge, hfail]
  · simp [handleEventDrop, hge]

theorem C4_optimistic_rollback_witness :
    handleEventDrop
        [⟨"e1", "Launch post", "Draft", none, none, 1740819600000, 1740823200000⟩]
        ⟨"e1", "Launch post", "Draft", none, none, 1740819600000, 1740823200000⟩
        (some 1740816000000) (some 1740823200000)
        (.resolved ⟨false, "Update Conflict (409): The file was modified by someone else. Please refresh and try again.", none⟩) =
      ⟨[⟨"e1", "Launch post", "Draft", none, none, 1740816000000, 1740823200000⟩],
       [⟨"e1", "Launch post", "Draft", none, none, 1740819600000, 1740823200000⟩],
       ["Error updating schedule: Update Conflict (409): The file was modified by someone else. Please refresh and try again.. Reverting change."]⟩ := by
  have h := (C4_optimistic_rollback
      [⟨"e1", "Launch post", "Draft", none, none, 1740819600000, 1740823200000⟩]
      ⟨"e1", "Launch post", "Draft", none, none, 1740819600000, 1740823200000⟩
      1740816000000 1740823200000
      ⟨false, "Update Conflict (409): The file was modified by someone else. Please refresh and try again.", none⟩
      (by decide)).1 rfl
  simpa using h

/-- A second well-formed event, disjoint id, used by the frame scenarios. -/
def otherRaw : RawEvent :=
  ⟨some "e2", some "Other post", some "2025-03-01T08:00:00Z", some "2025-03-01T10:00:00Z",
   some "Planned", some "a note", some "https://example.com/a"⟩

/-- `sampleEvent` rescheduled to an earlier approval time. -/
def updatedSample : CalendarEvent :=
  ⟨"e1", "Launch post", "2025-03-01T08:00:00Z", "2025-03-01T10:00:00Z", "Draft", none, none⟩

/-- C8: a successful update writes back exactly the read collection with the
matched position replaced by the validated event; every other position — in
particular every event whose id differs from the target — is byte-identical
and at its original index in the serialized array. -/
theorem C8_update_frame :
    ∀ (env : DateEnv) (wo : WriteOutcome) (es : List RawEvent) (sha : String)
      (e : CalendarEvent) (i : Nat),
      eventSchemaSafeParse env e = .ok e →
      findIndex (fun r => r.id == some e.id) es = some i →
      writesOf (updateCalendarEventRefined env ⟨.fileOk (.arr es) sha, wo⟩ e).2 =
        [⟨es.set i e.toRaw, some sha,
          "Update event: " ++ e.title ++ " (ID: " ++ e.id ++ ")"⟩] ∧
      (wo = .ok →
        (updateCalendarEventRefined env ⟨.fileOk (.arr es) sha, wo⟩ e).1.success = true) ∧
      (∀ (j : Nat), j ≠ i → (es.set i e.toRaw)[j]? = es[j]?) ∧
      (∀ (j : Nat) (x : RawEvent), es[j]? = some x → x.id ≠ some e.id →
        (es.set i e.toRaw)[j]? = some x) := by
  intro env wo es sha e i h1 h2
  have hfetch : fetchRawCalendarEventsForUpdate (.fileOk (.arr es) sha) = .ok (es, some sha) := rfl
  refine ⟨?_, ?_, ?_, ?_⟩
  · rcases h3 : updateFileContent wo with m | u <;>
      simp [updateCalendarEventRefined, h1, h2, hfetch, h3, writesOf]
  · intro hwo
    subst hwo
    simp [updateCalendarEventRefined, h1, h2, hfetch, updateFileContent]
  · intro j hj
    exact List.getElem?_set_ne (Ne.symm hj)
  · intro j x hx hid
    have hji : j ≠ i := by
      intro hji
      subst hji
      obtain ⟨y, hy, hpy⟩ := findIndex_eq_some h2
      rw [hx] at hy
      injection hy with hy
      subst hy
      exact hid (by simpa using hpy)
    rw [List.getElem?_set_ne (Ne.symm hji), hx]

theorem C8_update_frame_witness :
    writesOf (updateCalendarEventRefined testDateEnv
        ⟨.fileOk (.arr [otherRaw, sampleEvent.toRaw]) "sha0", .ok⟩ updatedSample).2 =
      [⟨[otherRaw, updatedSample.toRaw], some "sha0", "Update event: Launch post (ID: e1)"⟩] :=
  (C8_update_frame testDateEnv .ok [otherRaw, sampleEvent.toRaw] "sha0"
    updatedSample 1 rfl rfl).1

/-- C10: a successful delete writes back exactly the read collection filtered
by `id ≠ target`: every record carrying the target id — duplicates included —
is removed, every other record survives, and the survivors keep their original
relative order (the written list is a sublist of the read one). -/
theorem C10_delete_filters_all_matches :
    ∀ (wo : WriteOutcome) (es : List RawEvent) (sha : String) (eventId : String)
      (ev : RawEvent),
      eventId.isEmpty = false →
      es.find? (fun r => r.id == some eventId) = some ev →
      writesOf (deleteCalendarEvent ⟨.fileOk (.arr es) sha, wo⟩ eventId).2 =
        [⟨es.filter (fun x => x.id != some eventId), some sha,
          "Delete event: " ++ titleOrUndefined ev.title ++ " (ID: " ++ eventId ++ ")"⟩] ∧
      (wo = .ok →
        (deleteCalendarEvent ⟨.fileOk (.arr es) sha, wo⟩ eventId).1.success = true) ∧
      (∀ x ∈ es.filter (fun x => x.id != some eventId), x.id ≠ some eventId) ∧
      (es.filter (fun x => x.id != some eventId)).Sublist es ∧
      (∀ x ∈ es, x.id ≠ some eventId → x ∈ es.filter (fun x => x.id != some eventId)) := by
  intro wo es sha eventId ev h1 h2
  have hfetch : fetchRawCalendarEventsForUpdate (.fileOk (.arr es) sha) = .ok (es, some sha) := rfl
  refine ⟨?_, ?_, ?_, List.filter_sublist es, ?_⟩
  · rcases h3 : updateFileContent wo with m | u <;>
      simp [deleteCalendarEvent, h1, h2, hfetch, h3, writesOf]
  · intro hwo
    subst hwo
    simp [deleteCalendarEvent, h1, h2, hfetch, updateFileContent]
  · intro x hx
    have := (List.mem_filter.mp hx).2
    simpa using this
  · intro x hx hid
    exact List.mem_filter.mpr ⟨hx, by simpa using hid⟩

/-- A colliding record: same id as `sampleEvent`, different payload. -/
def dupRaw : RawEvent :=
  ⟨some "e1", some "Duplicated", some "2025-03-01T08:00:00Z", some "2025-03-01T09:00:00Z",
   some "Draft", none, none⟩

theorem C10_delete_filters_all_matches_witness :
    writesOf (deleteCalendarEvent
        ⟨.fileOk (.arr [sampleEvent.toRaw, otherRaw, dupRaw]) "sha0", .ok⟩ "e1").2 =
      [⟨[otherRaw], some "sha0", "Delete event: Launch post (ID: e1)"⟩] := by
  have h := (C10_delete_filters_all_matches .ok [sampleEvent.toRaw, otherRaw, dupRaw] "sha0"
      "e1" sampleEvent.toRaw rfl rfl).1
  simpa using h

/-! ## Committed-state evolution (claim C6) -/

/-- The collection a mutation call commits: defined only when the call
succeeded, in which case it is the content of its single write. -/
def committedContent (r : ActionResult × List StoreOp) : Option (List RawEvent) :=
  match r.1.success, writesOf r.2 with
  | true, [w] => some w.newContent
  | _, _ => none

/-- One successful committed mutation against the persisted collection `es`,
producing `es'`: an update, a create (whose generated UUID `newId` is fresh —
the freshness of `randomUUID()` is the one assumption taken about the
environment), or a delete.  Each operation reads the collection it mutates. -/
inductive CommitStep : List RawEvent → List RawEvent → Prop
  | update (env : DateEnv) (sha : String) (wo : WriteOutcome) (e : CalendarEvent)
      {es es' : List RawEvent}
      (h : committedContent
             (updateCalendarEventRefined env ⟨.fileOk (.arr es) sha, wo⟩ e) = some es') :
      CommitStep es es'
  | create (env : DateEnv) (sha : String) (wo : WriteOutcome) (inp : NewEventInput)
      (newId : String) {es es' : List RawEvent}
      (hfresh : some newId ∉ es.map RawEvent.id)
      (h : committedContent
             (createCalendarEvent env ⟨.fileOk (.arr es) sha, wo⟩ inp newId) = some es') :
      CommitStep es es'
  | delete (sha : String) (wo : WriteOutcome) (eventId : String)
      {es es' : List RawEvent}
      (h : committedContent
             (deleteCalendarEvent ⟨.fileOk (.arr es) sha, wo⟩ eventId) = some es') :
      CommitStep es es'

theorem update_committed {env : DateEnv} {es es' : List RawEvent} {sha : String}
    {wo : WriteOutcome} {e : CalendarEvent}
    (h : committedContent
           (updateCalendarEventRefined env ⟨.fileOk (.arr es) sha, wo⟩ e) = some es') :
    ∃ i, findIndex (fun r => r.id == some e.id) es = some i ∧ es' = es.set i e.toRaw := by
  have hfetch : fetchRawCalendarEventsForUpdate (.fileOk (.arr es) sha) = .ok (es, some sha) := rfl
  rcases hv : eventSchemaSafeParse env e with issues | v
  · simp [updateCalendarEventRefined, hv, committedContent, writesOf] at h
  · have hve : v = e := eventSchemaSafeParse_ok hv
    subst hve
    rcases hidx : findIndex (fun r => r.id == some v.id) es with _ | i
    · simp [updateCalendarEventRefined, hv, hfetch, hidx, committedContent, writesOf] at h
    · rcases hw : updateFileContent wo with m | u
      · simp [updateCalendarEventRefined, hv, hfetch, hidx, hw, committedContent, writesOf] at h
      · simp [updateCalendarEventRefined, hv, hfetch, hidx, hw, committedContent, writesOf] at h
        exact ⟨i, hidx, h.symm⟩

theorem create_committed {env : DateEnv} {es es' : List RawEvent} {sha : String}
    {wo : WriteOutcome} {inp : NewEventInput} {newId : String}
    (h : committedContent
           (createCalendarEvent env ⟨.fileOk (.arr es) sha, wo⟩ inp newId) = some es') :
    ∃ r : RawEvent, r.id = some newId ∧ es' = es ++ [r] := by
  have hfetch : fetchRawCalendarEventsForUpdate (.fileOk (.arr es) sha) = .ok (es, some sha) := rfl
  rcases hv : newEventSchemaSafeParse env inp with issues | v
  · simp [createCalendarEvent, hv, committedContent, writesOf] at h
  · rcases hw : updateFileContent wo with m | u
    · simp [createCalendarEvent, hv, hfetch, hw, committedContent, writesOf] at h
    · simp [createCalendarEvent, hv, hfetch, hw, committedContent, writesOf] at h
      exact ⟨_, rfl, h.symm⟩

theorem delete_committed {es es' : List RawEvent} {sha : String}
    {wo : WriteOutcome} {eventId : String}
    (h : committedContent
           (deleteCalendarEvent ⟨.fileOk (.arr es) sha, wo⟩ eventId) = some es') :
    es' = es.filter (fun x => x.id != some eventId) := by
  have hfetch : fetchRawCalendarEventsForUpdate (.fileOk (.arr es) sha) = .ok (es, some sha) := rfl
  rcases hne : eventId.isEmpty with _ | _
  · rcases hfind : es.find? (fun r => r.id == some eventId) with _ | ev
    · simp [deleteCalendarEvent, hne, hfetch, hfind, committedContent, writesOf] at h
    · rcases hw : updateFileContent wo with m | u
      · simp [deleteCalendarEvent, hne, hfetch, hfind, hw, committedContent, writesOf] at h
      · simp [deleteCalendarEvent, hne, hfetch, hfind, hw, committedContent, writesOf] at h
        exact h.symm
  · simp [deleteCalendarEvent, hne, committedContent, writesOf] at h

theorem CommitStep.nodup {es es' : List RawEvent} (h : CommitStep es es')
    (hn : (es.map RawEvent.id).Nodup) : (es'.map RawEvent.id).Nodup := by
  cases h with
  | update env sha wo e h =>
    obtain ⟨i, hidx, rfl⟩ := update_committed h
    obtain ⟨y, hy, hpy⟩ := findIndex_eq_some hidx
    have hyid : y.id = some e.id := by simpa using hpy
    rw [List.map_set]
    have hmap : (es.map RawEvent.id)[i]? = some (some e.id) := by
      rw [List.getElem?_map, hy]
      simp [hyid]
    have : (es.map RawEvent.id).set i e.toRaw.id = es.map RawEvent.id :=
      set_of_getElem?_eq _ _ _ hmap
    rw [this]
    exact hn
  | create env sha wo inp newId hfresh h =>
    obtain ⟨r, hrid, rfl⟩ := create_committed h
    rw [List.map_append]
    refine hn.append (by simp) ?_
    intro a ha hb
    simp only [List.map_cons, List.map_nil, List.mem_singleton] at hb
    subst hb
    rw [hrid] at ha
    exact hfresh ha
  | delete sha wo eventId h =>
    obtain rfl := delete_committed h
    exact hn.sublist ((List.filter_sublist es).map RawEvent.id)

/-- C6: starting from a persisted collection whose ids are pairwise distinct,
any finite chain of successful create/update/delete commits (create with a
fresh generated id, update replacing in place by id, delete removing) keeps
the committed collection free of duplicate ids. -/
theorem C6_id_uniqueness_preserved :
    ∀ (es es' : List RawEvent), Relation.ReflTransGen CommitStep es es' →
      (es.map RawEvent.id).Nodup → (es'.map RawEvent.id).Nodup := by
  intro es es' h hn
  induction h with
  | refl => exact hn
  | tail hstep hlast ih => exact hlast.nodup ih

theorem C6_id_uniqueness_preserved_witness :
    (([(⟨"e1", "Launch post", "2025-03-01T09:00:00Z", "2025-03-01T10:00:00Z",
        "Draft", none, none⟩ : CalendarEvent).toRaw] : List RawEvent).map RawEvent.id).Nodup :=
  C6_id_uniqueness_preserved [] _
    (Relation.ReflTransGen.single
      (CommitStep.create testDateEnv "sha0" .ok sampleNewInput "e1" (by simp) rfl))
    (by simp)

end ContentCalendar
